import Mathlib

/-!
Verification of the KryptoMF_Ai-BotCore trading bot against its
natural-language specification.

The development is a shallow embedding of the relevant Python modules:

 * `src/plugins/strategies/advanced_dca.py` (AdvancedDCAStrategy)
 * `src/plugins/strategies/dca.py`          (DCAStrategy)
 * `src/backtesting/backtest_engine.py`     (BacktestEngine)
 * `src/core/bot_instance.py`               (BotInstance fill reconciliation)
 * `src/plugins/exchanges/ccxt_exchange.py` (CCXTExchange paper trading)

Python floats are modelled as rationals; Python dictionaries become
structures; values that Python treats as possibly absent (None) become
Option; code paths that raise become Except.  Indicator leaf functions
from the external ta library are abstracted as oracle fields carried by
the bar-window value (the specification itself treats indicators as
opaque pure functions over a bar window).
-/

namespace KryptoBot

/-- An exchange order as the core reads it: the dictionary fields
consumed by the strategies and the bot instance.  `feeCost` models
`order.get('fee', ...).get('cost', 0)`; absent numeric keys are read in
the source through `.get(key, 0)`, which the fields default-encode as 0
when a producer does not set them. -/
structure Order where
  id : String
  symbol : String
  side : String
  amount : ℚ
  filled : ℚ
  price : ℚ
  cost : ℚ
  feeCost : ℚ
  status : String
  deriving Repr, DecidableEq, Inhabited

/-- Oracle view of a pandas OHLCV DataFrame window: its length plus the
values the strategy code extracts from it through the TechnicalIndicators
module (external ta library, abstracted as opaque pure functions of the
window, as the spec treats them). -/
structure Df where
  len : ℕ
  priceDropped : Bool
  rsi : ℚ
  rsiRising : Bool
  stochOversold : Bool
  priceBelowEma : Bool
  macdRising : Bool
  mfiOversold : Bool
  priceRising : Bool
  deriving Repr, DecidableEq, Inhabited

/-- Market data dictionary handed to `analyze`: `last` and `ohlcv` are the
keys the strategies read (both may be absent), `close` and `timestamp` are
set by the backtest engine when it builds the dictionary per candle. -/
structure MarketData where
  last : Option ℚ
  ohlcv : Option Df
  close : ℚ
  timestamp : ℚ
  deriving Repr, DecidableEq, Inhabited

/-- A strategy signal: the `action`, `confidence`, and the `price` /
`amount` metadata entries consumed by the executors (hold signals carry
neither).  Free-text reason strings are log output and are not modelled. -/
structure Signal where
  action : String
  confidence : ℚ
  price : Option ℚ
  amount : Option ℚ
  deriving Repr, DecidableEq, Inhabited

/-- Python builtin abs on a rational. -/
def pyAbs (x : ℚ) : ℚ :=
  if x < 0 then -x else x

namespace AdvancedDCA

/-- One entry of the AdvancedDCAStrategy purchases list
(advanced_dca.py, `_handle_buy_filled`).  The nested sell_order
sub-dictionary is tracked through its status field; the remaining
sub-fields are only written on the popped copy after removal. -/
structure Purchase where
  buyOrderId : String
  cost : ℚ
  amount : ℚ
  price : ℚ
  fee : ℚ
  sellPrice : ℚ
  dcaApplied : ℚ
  sellOrderStatus : String
  deriving Repr, DecidableEq, Inhabited

/-- Trailing state dictionary shared verbatim by DCAStrategy and
AdvancedDCAStrategy (`update_trailing` is the same code in dca.py lines
588-653 and advanced_dca.py lines 522-569). -/
structure TrailingState where
  status : String
  direction : Option String
  activationPrice : Option ℚ
  watermark : Option ℚ
  trailingPercent : Option ℚ
  lastUpdate : Option ℚ
  deriving Repr, DecidableEq, Inhabited

/-- AdvancedDCAStrategy object state: configuration parameters fixed in
`__init__` plus the mutable fields (purchases ledger, profit counters,
trailing state). -/
structure Strategy where
  amountUsd : ℚ
  minProfitPercent : ℚ
  dcaPoolPercent : ℚ
  usePriceDrop : Bool
  useRsi : Bool
  rsiOversold : ℚ
  useStochRsi : Bool
  useEma : Bool
  useMacd : Bool
  useMfi : Bool
  baseStepDown : ℚ
  stepDownMultiplier : ℚ
  maxStepDown : ℚ
  indicatorAgreement : ℚ
  purchases : List Purchase
  totalProfit : ℚ
  totalDcaApplied : ℚ
  trailing : TrailingState
  deriving Repr, DecidableEq, Inhabited

/-- Fresh strategy as `__init__` builds it for a given minimum-profit
fraction, DCA pool fraction, step-down multiplier and cap, with the other
parameters at their source defaults.  `baseStepDown` is derived exactly as
in the source: `min(min_profit_percent * 100, 5.0)`. -/
def initStrategy (minProfitPercent dcaPoolPercent stepDownMultiplier maxStepDown : ℚ) :
    Strategy where
  amountUsd := 100
  minProfitPercent := minProfitPercent
  dcaPoolPercent := dcaPoolPercent
  usePriceDrop := false
  useRsi := true
  rsiOversold := 35
  useStochRsi := true
  useEma := true
  useMacd := true
  useMfi := true
  baseStepDown := min (minProfitPercent * 100) 5
  stepDownMultiplier := stepDownMultiplier
  maxStepDown := maxStepDown
  indicatorAgreement := 3/5
  purchases := []
  totalProfit := 0
  totalDcaApplied := 0
  trailing :=
    { status := "inactive", direction := none, activationPrice := none,
      watermark := none, trailingPercent := none, lastUpdate := none }

/-- Purchase record built by `_handle_buy_filled` from a filled buy order:
sell price `((cost + fee) / amount) * (1 + min_profit_percent + 0.002)`. -/
def mkPurchase (minProfitPercent : ℚ) (o : Order) : Purchase :=
  let cost := o.cost
  let amount := o.filled
  let fee := o.feeCost
  let sellPrice := ((cost + fee) / amount) * (1 + minProfitPercent + 1/500)
  { buyOrderId := o.id, cost := cost, amount := amount, price := o.price,
    fee := fee, sellPrice := sellPrice, dcaApplied := 0,
    sellOrderStatus := "pending" }

/-- Handler `_handle_buy_filled`: append the new purchase to the ledger. -/
def handleBuyFilled (s : Strategy) (o : Order) : Strategy :=
  { s with purchases := s.purchases ++ [mkPurchase s.minProfitPercent o] }

/-- Update of a single purchase inside `_apply_dca_to_previous`: reduce
the cost by the DCA amount and recompute the sell price from the new cost
as `(1 + min_profit + 0.002) * (new_cost + 2 * fee) / amount`. -/
def applyDcaPurchase (minProfitPercent dcaAmount : ℚ) (p : Purchase) : Purchase :=
  let newCost := p.cost - dcaAmount
  let adjProfit := minProfitPercent + 1/500
  let amountAndProfit := (1 + adjProfit) * (newCost + 2 * p.fee)
  let newSellPrice := amountAndProfit / p.amount
  { p with cost := newCost
           sellPrice := newSellPrice
           dcaApplied := p.dcaApplied + dcaAmount }

/-- Method `_apply_dca_to_previous`: rewrite the most recent remaining
purchase (last of the list) and add the amount to the running
total_dca_applied counter. -/
def applyDcaToPrevious (s : Strategy) (dcaAmount : ℚ) : Strategy :=
  match s.purchases.getLast? with
  | none => s
  | some prev =>
      { s with
        purchases := s.purchases.dropLast ++
          [applyDcaPurchase s.minProfitPercent dcaAmount prev],
        totalDcaApplied := s.totalDcaApplied + dcaAmount }

/-- Floating-point tolerance comparison used to match a sell order to a
purchase: `abs(purchase_amount - sold_amount) < 1e-10`. -/
def amountMatches (purchaseAmount soldAmount : ℚ) : Bool :=
  pyAbs (purchaseAmount - soldAmount) < 1 / 10000000000

/-- Pop (first match, as `list.pop(i)` at the first matching index) the
purchase whose amount matches the sold amount within tolerance. -/
def popMatch (soldAmount : ℚ) : List Purchase → Option (Purchase × List Purchase)
  | [] => none
  | p :: ps =>
      if amountMatches p.amount soldAmount then some (p, ps)
      else
        match popMatch soldAmount ps with
        | none => none
        | some (q, rest) => some (q, p :: rest)

/-- Handler `_handle_sell_filled`: find and remove the sold purchase by
amount, accumulate realised profit, and when excess profit remains and
purchases remain, reallocate `leftover * dca_pool_percent` onto the most
recent remaining purchase.  When no purchase matches (or the ledger is
empty) the method logs a warning and returns with nothing changed. -/
def handleSellFilled (s : Strategy) (o : Order) : Strategy :=
  let saleAmount := o.cost
  let fee := o.feeCost
  let soldAmount := o.amount
  if s.purchases.isEmpty then s
  else
    match popMatch soldAmount s.purchases with
    | none => s
    | some (soldPurchase, rest) =>
        let soldPurchase := { soldPurchase with sellOrderStatus := "filled" }
        let purchaseCost := soldPurchase.cost
        let profitMinimum := s.minProfitPercent * purchaseCost
        let totalProfit := saleAmount - fee - purchaseCost
        let leftoverProfit := totalProfit - profitMinimum
        let dcaToAdd := if leftoverProfit > 0 then leftoverProfit * s.dcaPoolPercent else 0
        let s1 := { s with purchases := rest, totalProfit := s.totalProfit + totalProfit }
        if dcaToAdd > 0 ∧ rest ≠ [] then applyDcaToPrevious s1 dcaToAdd else s1

/-- Dispatcher `on_order_filled`. -/
def onOrderFilled (s : Strategy) (o : Order) : Strategy :=
  if o.side = "buy" then handleBuyFilled s o
  else if o.side = "sell" then handleSellFilled s o
  else s

/-- Progressive step-down threshold computed in `analyze`:
`min(base_step_down * step_down_multiplier ** (purchase_number - 2), max_step_down)`. -/
def requiredStep (baseStepDown stepDownMultiplier maxStepDown : ℚ) (purchaseNumber : ℕ) : ℚ :=
  min (baseStepDown * stepDownMultiplier ^ (purchaseNumber - 2)) maxStepDown

/-- Hold signal used for insufficient data and for an insufficient price
drop (confidence 0.0 in both returns). -/
def holdLowConfidence : Signal :=
  { action := "hold", confidence := 0, price := none, amount := none }

/-- Final part of `analyze`: indicator-vote decision.  Python computes
`positive_signals / total_signals` for the confidence; with every
indicator disabled that expression divides by zero and raises, a state no
configuration of this class produces since at least one use flag defaults
to on; rational division by zero yields 0 here. -/
def advBuyDecision (s : Strategy) (price : ℚ) (buySignals : List Bool) : Signal :=
  let positiveSignals : ℚ := (buySignals.count true : ℕ)
  let totalSignals : ℚ := (buySignals.length : ℕ)
  if positiveSignals ≥ totalSignals * s.indicatorAgreement then
    { action := "buy", confidence := positiveSignals / totalSignals,
      price := some price, amount := some (s.amountUsd / price) }
  else
    { action := "hold", confidence := 1, price := none, amount := none }

/-- Method `AdvancedDCAStrategy.analyze`.  Priority one: first purchase
whose sell price is reached produces a sell signal.  Priority two: gather
indicator votes, gate on the progressive step-down when the ledger is
non-empty, then vote.  The method performs no assignment to the strategy
object, so the strategy component of the result is returned unchanged on
every path; it reads no clock. -/
def advAnalyze (s : Strategy) (md : MarketData) : Signal × Strategy :=
  match md.last, md.ohlcv with
  | some currentPrice, some df =>
    if currentPrice = 0 ∨ df.len < 50 then (holdLowConfidence, s)
    else
      match s.purchases.find? (fun p => decide (currentPrice ≥ p.sellPrice)) with
      | some purchase =>
          ({ action := "sell", confidence := 1, price := some currentPrice,
             amount := some purchase.amount }, s)
      | none =>
          let buySignals : List Bool :=
            (if s.usePriceDrop then [df.priceDropped] else []) ++
            (if s.useRsi then [decide (df.rsi ≤ s.rsiOversold)] else []) ++
            (if s.useStochRsi then [df.stochOversold] else []) ++
            (if s.useEma then [df.priceBelowEma] else []) ++
            (if s.useMacd then [df.macdRising] else []) ++
            (if s.useMfi then [df.mfiOversold] else [])
          match s.purchases.getLast? with
          | some lastPurchase =>
              let lastPurchasePrice := lastPurchase.price
              let purchaseNumber := s.purchases.length + 1
              let step := requiredStep s.baseStepDown s.stepDownMultiplier
                s.maxStepDown purchaseNumber
              let priceDropFromLast := ((lastPurchasePrice - currentPrice) / lastPurchasePrice) * 100
              if priceDropFromLast < step then (holdLowConfidence, s)
              else (advBuyDecision s currentPrice buySignals, s)
          | none => (advBuyDecision s currentPrice buySignals, s)
  | _, _ => (holdLowConfidence, s)

/-- Method `update_trailing` (identical in dca.py and advanced_dca.py):
threads the current wall-clock value for the last_update writes.  The
branches read direction, activation price, watermark and trailing percent
only in states where `start_trailing` has set them; a None read there
would raise in Python and leaves the state unchanged here. -/
def updateTrailing (now currentPrice : ℚ) (ts : TrailingState) : TrailingState × Bool :=
  if ts.status = "inactive" then (ts, false)
  else if ts.status = "waiting" then
    match ts.direction, ts.activationPrice with
    | some "up", some activationPrice =>
        if currentPrice ≥ activationPrice then
          ({ ts with status := "active"
                     watermark := some currentPrice
                     lastUpdate := some now }, false)
        else (ts, false)
    | some "down", some activationPrice =>
        if currentPrice ≤ activationPrice then
          ({ ts with status := "active"
                     watermark := some currentPrice
                     lastUpdate := some now }, false)
        else (ts, false)
    | _, _ => (ts, false)
  else if ts.status = "active" then
    match ts.direction, ts.watermark, ts.trailingPercent with
    | some "up", some watermark, some trailingPercent =>
        let ts1 :=
          if currentPrice > watermark then
            { ts with watermark := some currentPrice, lastUpdate := some now }
          else ts
        let dropPercent := ((watermark - currentPrice) / watermark) * 100
        if dropPercent ≥ trailingPercent then ({ ts1 with status := "triggered" }, true)
        else (ts1, false)
    | some "down", some watermark, some trailingPercent =>
        let ts1 :=
          if currentPrice < watermark then
            { ts with watermark := some currentPrice, lastUpdate := some now }
          else ts
        let risePercent := ((currentPrice - watermark) / watermark) * 100
        if risePercent ≥ trailingPercent then ({ ts1 with status := "triggered" }, true)
        else (ts1, false)
    | _, _, _ => (ts, false)
  else (ts, false)

/-- Sum of dca_applied over the purchases currently in the ledger. -/
def sumDca (s : Strategy) : ℚ :=
  (s.purchases.map Purchase.dcaApplied).sum

end AdvancedDCA

namespace DCA

/-- Python truthiness of an optional numeric configuration or state value:
None and 0 are falsy. -/
def truthy : Option ℚ → Bool
  | none => false
  | some x => x ≠ 0

/-- DCAStrategy object state (dca.py): configuration fixed in `__init__`
plus the mutable bookkeeping fields read or written by `analyze`,
including the OHLCV cache. -/
structure Strategy where
  amountUsd : ℚ
  maxPrice : Option ℚ
  minPrice : Option ℚ
  minIntervalHours : ℚ
  usePriceDrop : Bool
  useRsi : Bool
  checkRsiRising : Bool
  rsiOversold : ℚ
  useStochRsi : Bool
  useEma : Bool
  useMacd : Bool
  checkMacdRising : Bool
  useMfi : Bool
  useRisingPrice : Bool
  smartChecks : Bool
  minPriceChangePercent : ℚ
  lastPurchaseTime : Option ℚ
  lastPurchasePrice : Option ℚ
  ohlcvCache : Option Df
  ohlcvCacheTime : ℚ
  ohlcvCacheTtl : ℚ
  deriving Repr, DecidableEq, Inhabited

/-- Fresh DCAStrategy with the source defaults of `__init__` (empty
params and config): smart checks on, 0.5 percent minimum move, five
minute indicator cache, RSI and EMA and rising-price checks enabled. -/
def initStrategy : Strategy where
  amountUsd := 100
  maxPrice := none
  minPrice := none
  minIntervalHours := 0
  usePriceDrop := false
  useRsi := true
  checkRsiRising := true
  rsiOversold := 30
  useStochRsi := false
  useEma := true
  useMacd := false
  checkMacdRising := true
  useMfi := false
  useRisingPrice := true
  smartChecks := true
  minPriceChangePercent := 1/2
  lastPurchaseTime := none
  lastPurchasePrice := none
  ohlcvCache := none
  ohlcvCacheTime := 0
  ohlcvCacheTtl := 300

/-- Method `_get_ohlcv_data`: return the cached window when it is fresh,
otherwise read the window from the market data and cache it (a state
write performed inside `analyze`). -/
def getOhlcvData (s : Strategy) (now : ℚ) (md : MarketData) : Option Df × Strategy :=
  if s.ohlcvCache.isSome ∧ now - s.ohlcvCacheTime < s.ohlcvCacheTtl then
    (s.ohlcvCache, s)
  else
    match md.ohlcv with
    | some df => (some df, { s with ohlcvCache := some df, ohlcvCacheTime := now })
    | none => (none, s)

/-- Indicator-vote tail of `DCAStrategy.analyze` after all early returns:
at least `max(1, total * 0.5)` of the enabled indicator votes must agree. -/
def dcaBuyDecision (s : Strategy) (currentPrice : ℚ) (buySignals : List Bool) : Signal :=
  let positiveSignals : ℚ := (buySignals.count true : ℕ)
  let totalSignals : ℚ := (buySignals.length : ℕ)
  if positiveSignals ≥ max 1 (totalSignals * (1/2)) then
    { action := "buy",
      confidence := if totalSignals > 0 then positiveSignals / totalSignals else 1,
      price := some currentPrice, amount := some (s.amountUsd / currentPrice) }
  else
    { action := "hold", confidence := 1, price := none, amount := none }

/-- Method `DCAStrategy.analyze`: reads the wall clock (`now`), may skip
on a too-small price move, refreshes and caches the OHLCV window (a state
mutation), applies the minimum-interval and price-limit gates, then votes
over the enabled indicators. -/
def dcaAnalyze (s : Strategy) (now : ℚ) (md : MarketData) : Signal × Strategy :=
  match md.last with
  | none => ({ action := "hold", confidence := 0, price := none, amount := none }, s)
  | some currentPrice =>
    if currentPrice = 0 then
      ({ action := "hold", confidence := 0, price := none, amount := none }, s)
    else if s.smartChecks ∧ truthy s.lastPurchasePrice then
      let lastPurchasePrice := s.lastPurchasePrice.getD 0
      let priceChangePercent := pyAbs ((currentPrice - lastPurchasePrice) / lastPurchasePrice) * 100
      if priceChangePercent < s.minPriceChangePercent then
        ({ action := "hold", confidence := 1/2, price := none, amount := none }, s)
      else dcaAnalyzeAfterSmart s now md currentPrice
    else dcaAnalyzeAfterSmart s now md currentPrice
where
  /-- Continuation of `analyze` after the smart price-move gate. -/
  dcaAnalyzeAfterSmart (s : Strategy) (now : ℚ) (md : MarketData) (currentPrice : ℚ) :
      Signal × Strategy :=
    let dfAndState := getOhlcvData s now md
    let s1 := dfAndState.2
    match dfAndState.1 with
    | none => ({ action := "hold", confidence := 0, price := none, amount := none }, s1)
    | some df =>
      if df.len < 50 then
        ({ action := "hold", confidence := 0, price := none, amount := none }, s1)
      else if s1.minIntervalHours > 0 ∧ truthy s1.lastPurchaseTime then
        let timeSinceLast := (now - s1.lastPurchaseTime.getD 0) / 3600
        if timeSinceLast < s1.minIntervalHours then
          ({ action := "hold", confidence := 1, price := none, amount := none }, s1)
        else dcaAnalyzeLimits s1 currentPrice df
      else dcaAnalyzeLimits s1 currentPrice df
  /-- Continuation of `analyze` after the minimum-interval gate: price
  limits, then the indicator vote. -/
  dcaAnalyzeLimits (s1 : Strategy) (currentPrice : ℚ) (df : Df) : Signal × Strategy :=
    if truthy s1.maxPrice ∧ currentPrice > s1.maxPrice.getD 0 then
      ({ action := "hold", confidence := 1, price := none, amount := none }, s1)
    else if truthy s1.minPrice ∧ currentPrice < s1.minPrice.getD 0 then
      ({ action := "hold", confidence := 1, price := none, amount := none }, s1)
    else
      let buySignals : List Bool :=
        (if s1.usePriceDrop then [df.priceDropped] else []) ++
        (if s1.useRsi then
          [if s1.checkRsiRising then decide (df.rsi ≤ s1.rsiOversold) && df.rsiRising
           else decide (df.rsi ≤ s1.rsiOversold)] else []) ++
        (if s1.useStochRsi then [df.stochOversold] else []) ++
        (if s1.useEma then [df.priceBelowEma] else []) ++
        (if s1.useMacd then [if s1.checkMacdRising then df.macdRising else true] else []) ++
        (if s1.useMfi then [df.mfiOversold] else []) ++
        (if s1.useRisingPrice then [df.priceRising] else [])
      (dcaBuyDecision s1 currentPrice buySignals, s1)

/-- Projection that blanks the OHLCV cache fields; used to state that
`analyze` writes nothing but the cache. -/
def cacheCleared (s : Strategy) : Strategy :=
  { s with ohlcvCache := none, ohlcvCacheTime := 0 }

end DCA

namespace Backtest

/-- One historical OHLCV candle row. -/
structure Candle where
  timestamp : ℚ
  openPrice : ℚ
  highPrice : ℚ
  lowPrice : ℚ
  closePrice : ℚ
  volume : ℚ
  deriving Repr, DecidableEq, Inhabited

/-- One entry of the trade log (`self.trades`): buys record `cost`, sells
record `proceeds` and `profit`; `_calculate_results` later reads the
profit with `.get('profit', 0)`.  The dict key named type is `tradeType`
here. -/
structure Trade where
  timestamp : ℚ
  tradeType : String
  price : ℚ
  amount : ℚ
  cost : Option ℚ
  proceeds : Option ℚ
  profit : Option ℚ
  balance : ℚ
  position : ℚ
  deriving Repr, DecidableEq, Inhabited

/-- One equity-curve point appended after every processed candle. -/
structure EquityPoint where
  timestamp : ℚ
  equity : ℚ
  balance : ℚ
  position : ℚ
  price : ℚ
  deriving Repr, DecidableEq, Inhabited

/-- Mutable state of BacktestEngine: simulated ledger, trade log and
equity curve. -/
structure EngineState where
  initialBalance : ℚ
  balance : ℚ
  position : ℚ
  positionCost : ℚ
  trades : List Trade
  equityCurve : List EquityPoint
  deriving Repr, DecidableEq, Inhabited

/-- Engine state as `__init__` leaves it for a given initial balance. -/
def initEngine (initialBalance : ℚ) : EngineState where
  initialBalance := initialBalance
  balance := initialBalance
  position := 0
  positionCost := 0
  trades := []
  equityCurve := []

/-- Method `_execute_buy`: price defaults to the candle close, a
non-positive amount returns silently, a cost above the balance returns
silently, otherwise the ledger is debited and a buy trade is recorded. -/
def executeBuy (st : EngineState) (sig : Signal) (md : MarketData) : EngineState :=
  let price := sig.price.getD md.close
  let amount := sig.amount.getD 0
  if amount ≤ 0 then st
  else
    let cost := amount * price
    if cost > st.balance then st
    else
      { st with balance := st.balance - cost
                position := st.position + amount
                positionCost := st.positionCost + cost
                trades := st.trades ++
                  [{ timestamp := md.timestamp, tradeType := "buy", price := price,
                     amount := amount, cost := some cost, proceeds := none,
                     profit := none, balance := st.balance - cost,
                     position := st.position + amount }] }

/-- Method `_execute_sell`: a non-positive amount returns silently, an
amount above the position returns silently, otherwise sells at the stated
price, attributing cost basis at the average cost of the position. -/
def executeSell (st : EngineState) (sig : Signal) (md : MarketData) : EngineState :=
  let price := sig.price.getD md.close
  let amount := sig.amount.getD 0
  if amount ≤ 0 then st
  else if amount > st.position then st
  else
    let proceeds := amount * price
    let avgCost := if st.position > 0 then st.positionCost / st.position else 0
    let costOfSold := amount * avgCost
    let profit := proceeds - costOfSold
    { st with balance := st.balance + proceeds
              position := st.position - amount
              positionCost := st.positionCost - costOfSold
              trades := st.trades ++
                [{ timestamp := md.timestamp, tradeType := "sell", price := price,
                   amount := amount, cost := none, proceeds := some proceeds,
                   profit := some profit, balance := st.balance + proceeds,
                   position := st.position - amount }] }

/-- Method `_process_candle`: build the market-data dictionary for the
candle (close doubling as last, the lookback window as ohlcv), run the
strategy, dispatch the signal, then append an equity point.  The strategy
is threaded as a state-passing function; `indf` abstracts the indicator
view of the lookback window. -/
def processCandle {σ : Type} (strat : σ → MarketData → Signal × σ)
    (indf : List Candle → Df) (acc : EngineState × σ)
    (candle : Candle) (window : List Candle) : EngineState × σ :=
  let md : MarketData :=
    { last := some candle.closePrice, ohlcv := some (indf window),
      close := candle.closePrice, timestamp := candle.timestamp }
  let sigAndState := strat acc.2 md
  let sig := sigAndState.1
  let st :=
    if sig.action = "buy" then executeBuy acc.1 sig md
    else if sig.action = "sell" then executeSell acc.1 sig md
    else acc.1
  let equity := st.balance + st.position * md.close
  ({ st with equityCurve := st.equityCurve ++
      [{ timestamp := md.timestamp, equity := equity, balance := st.balance,
         position := st.position, price := md.close }] }, sigAndState.2)

/-- Candle loop of `run`: indices from the fixed lookback of 100 to the
end, each with the trailing window `iloc[max(0, i-200) : i+1]`. -/
def runLoop {σ : Type} (strat : σ → MarketData → Signal × σ)
    (indf : List Candle → Df) (bars : List Candle)
    (st0 : EngineState) (s0 : σ) : EngineState × σ :=
  (List.range bars.length).foldl
    (fun acc i =>
      if i < 100 then acc
      else
        match bars[i]? with
        | none => acc
        | some candle =>
            let window := (bars.take (i + 1)).drop (i - 200)
            processCandle strat indf acc candle window)
    (st0, s0)

/-- Method `_calculate_max_drawdown` inner loop: running peak and running
maximum percentage drawdown over the equity values. -/
def maxDrawdownAux : List ℚ → ℚ → ℚ → ℚ
  | [], _, maxDrawdown => maxDrawdown
  | equity :: rest, maxEquity, maxDrawdown =>
      let maxEquity := if equity > maxEquity then equity else maxEquity
      let drawdown := ((maxEquity - equity) / maxEquity) * 100
      let maxDrawdown := if drawdown > maxDrawdown then drawdown else maxDrawdown
      maxDrawdownAux rest maxEquity maxDrawdown

/-- Method `_calculate_max_drawdown`: 0 on an empty curve, else the
running peak-to-trough percentage decline, the peak seeded with the first
equity value. -/
def calcMaxDrawdown (equityValues : List ℚ) : ℚ :=
  match equityValues with
  | [] => 0
  | first :: _ => maxDrawdownAux equityValues first 0

/-- Numeric fields of the results dictionary built by
`_calculate_results` (the dictionary also carries the trade log and the
equity curve, which stay in the engine state here). -/
structure Results where
  initialBalance : ℚ
  finalEquity : ℚ
  totalReturn : ℚ
  totalReturnPct : ℚ
  totalTrades : ℕ
  buyTrades : ℕ
  sellTrades : ℕ
  winningTrades : ℕ
  losingTrades : ℕ
  winRate : ℚ
  avgWin : ℚ
  avgLoss : ℚ
  maxDrawdown : ℚ
  deriving Repr, DecidableEq, Inhabited

/-- Method `_calculate_results`. -/
def calcResults (st : EngineState) : Results :=
  let finalEquity :=
    match st.equityCurve.getLast? with
    | some point => point.equity
    | none => st.initialBalance
  let totalReturn := finalEquity - st.initialBalance
  let totalReturnPct := (totalReturn / st.initialBalance) * 100
  let buyTrades := st.trades.filter (fun t => t.tradeType = "buy")
  let sellTrades := st.trades.filter (fun t => t.tradeType = "sell")
  let winningTrades := sellTrades.filter (fun t => t.profit.getD 0 > 0)
  let losingTrades := sellTrades.filter (fun t => t.profit.getD 0 < 0)
  let winRate :=
    if sellTrades ≠ [] then
      ((winningTrades.length : ℚ) / (sellTrades.length : ℚ)) * 100
    else 0
  let avgWin :=
    if winningTrades ≠ [] then
      (winningTrades.map (fun t => t.profit.getD 0)).sum / (winningTrades.length : ℚ)
    else 0
  let avgLoss :=
    if losingTrades ≠ [] then
      (losingTrades.map (fun t => t.profit.getD 0)).sum / (losingTrades.length : ℚ)
    else 0
  { initialBalance := st.initialBalance
    finalEquity := finalEquity
    totalReturn := totalReturn
    totalReturnPct := totalReturnPct
    totalTrades := st.trades.length
    buyTrades := buyTrades.length
    sellTrades := sellTrades.length
    winningTrades := winningTrades.length
    losingTrades := losingTrades.length
    winRate := winRate
    avgWin := avgWin
    avgLoss := avgLoss
    maxDrawdown := calcMaxDrawdown (st.equityCurve.map EquityPoint.equity) }

/-- Exactly the keys `_calculate_results` places in the results
dictionary (backtest_engine.py lines 378-394). -/
def resultsKeys : List String :=
  ["initial_balance", "final_equity", "total_return", "total_return_pct",
   "total_trades", "buy_trades", "sell_trades", "winning_trades",
   "losing_trades", "win_rate", "avg_win", "avg_loss", "max_drawdown",
   "trades", "equity_curve"]

/-- Keys the summary display in `run` reads from the results dictionary,
in source order (backtest_engine.py lines 155-181; the win-rate block
re-reads keys already read). -/
def displayKeyReads : List String :=
  ["final_equity", "total_profit", "return_pct", "total_trades",
   "winning_trades", "losing_trades", "max_drawdown", "sharpe_ratio"]

/-- Dictionary subscript access `results[k]` for each key in turn: the
first key absent from the dictionary raises KeyError. -/
def lookupKeys : List String → Except String Unit
  | [] => Except.ok ()
  | k :: ks =>
      if k ∈ resultsKeys then lookupKeys ks
      else Except.error ("KeyError: " ++ k)

/-- Method `BacktestEngine.run`: raises ValueError on empty data, runs
the candle loop, computes the results, then renders the summary (whose
dictionary reads may raise) before returning the results.  The
no-strategy ValueError is outside the model: the strategy is an
argument here. -/
def run {σ : Type} (strat : σ → MarketData → Signal × σ)
    (indf : List Candle → Df) (initialBalance : ℚ) (bars : List Candle)
    (s0 : σ) : Except String Results :=
  if bars.isEmpty then Except.error "ValueError: No historical data provided"
  else
    let final := runLoop strat indf bars (initEngine initialBalance) s0
    let results := calcResults final.1
    match lookupKeys displayKeyReads with
    | Except.ok _ => Except.ok results
    | Except.error e => Except.error e

/-- Modelled from the claim wording for the refinement check of the fill
guards: a signal that passes the guard is filled immediately and fully at
the stated price against the simulated ledger, appending one trade.  This
definition follows the claim, not the source; `executeBuy` above is the
source behaviour. -/
def specFillBuy (st : EngineState) (sig : Signal) (md : MarketData) : EngineState :=
  let price := sig.price.getD md.close
  let amount := sig.amount.getD 0
  let cost := amount * price
  { st with balance := st.balance - cost
            position := st.position + amount
            positionCost := st.positionCost + cost
            trades := st.trades ++
              [{ timestamp := md.timestamp, tradeType := "buy", price := price,
                 amount := amount, cost := some cost, proceeds := none,
                 profit := none, balance := st.balance - cost,
                 position := st.position + amount }] }

/-- Modelled from the claim wording: the claimed behaviour of a buy
signal, skip when the cost exceeds the balance and otherwise fill. -/
def buyClaim (st : EngineState) (sig : Signal) (md : MarketData) : Prop :=
  let price := sig.price.getD md.close
  let amount := sig.amount.getD 0
  if amount * price > st.balance then executeBuy st sig md = st
  else executeBuy st sig md = specFillBuy st sig md

end Backtest

namespace Bot

/-- Python runtime error kinds surfaced by the embedded bot code. -/
inductive PyErr where
  | attributeError (msg : String)
  deriving Repr, DecidableEq

/-- Subscript `.keys()` on the value returned by
`exchange.get_open_orders(...)`: that value is a Python list (ccxt
`fetch_open_orders` returns a list, and the paper path returns `[]`), and
a list has no keys attribute, so the call raises AttributeError
(bot_instance.py line 480). -/
def pyListKeys (_openOrders : List Order) : Except PyErr (List String) :=
  Except.error (PyErr.attributeError "list object has no attribute keys")

/-- Order-tracking state of the bot together with the trace of
`on_order_filled` notifications delivered to the strategy (recorded by
order id, in call order). -/
structure BotState where
  notifiedOrders : List String
  notifications : List String
  deriving Repr, DecidableEq, Inhabited

/-- Body of `_check_filled_orders` inside its try block: early return on
an empty open-order list, then iteration over `list(open_orders.keys())`,
notifying the strategy once per closed, not-yet-notified order id.  The
state writes of `_update_profit_stats` and `_save_state` are outside the
order-tracking state modelled here. -/
def checkFilledOrdersBody (getOrder : String → Option Order)
    (openOrders : List Order) (st : BotState) : Except PyErr BotState := do
  if openOrders.isEmpty then
    return st
  let ids ← pyListKeys openOrders
  return ids.foldl
    (fun st orderId =>
      if orderId ∈ st.notifiedOrders then st
      else
        match getOrder orderId with
        | some o =>
            if o.status = "closed" then
              { st with notifications := st.notifications ++ [orderId]
                        notifiedOrders := st.notifiedOrders ++ [orderId] }
            else st
        | none => st)
    st

/-- Method `_check_filled_orders`: the try/except wrapper logs any
exception and leaves the bot state as it was. -/
def checkFilledOrders (getOrder : String → Option Order)
    (openOrders : List Order) (st : BotState) : BotState :=
  match checkFilledOrdersBody getOrder openOrders st with
  | Except.ok st2 => st2
  | Except.error _ => st

end Bot

namespace CCXT

/-- Argument tuple of one `place_order` call. -/
structure PlaceArgs where
  symbol : String
  side : String
  amount : ℚ
  price : ℚ
  deriving Repr, DecidableEq, Inhabited

/-- Interpolation target of the paper order id,
the f-string over symbol, side, amount and price.  Python float
formatting is abstracted by rational toString; only equality of equal
argument tuples is relied upon below. -/
def fmtArgs (a : PlaceArgs) : String :=
  a.symbol ++ a.side ++ toString a.amount ++ toString a.price

/-- Paper-trading branch of `CCXTExchange.place_order`
(ccxt_exchange.py lines 188-200): a synthetic immediately-closed order
whose id is the string paper_ followed by the hash of the interpolated
arguments.  `h` stands for the Python per-process string hash, an
unspecified deterministic function; no result below depends on its
choice.  The synthetic dictionary carries no cost or fee keys; consumers
read them with `.get(key, 0)`, hence 0 here. -/
def paperPlaceOrder (h : String → ℤ) (a : PlaceArgs) : Order :=
  { id := "paper_" ++ toString (h (fmtArgs a)), symbol := a.symbol,
    side := a.side, amount := a.amount, filled := a.amount,
    price := a.price, cost := 0, feeCost := 0, status := "closed" }

/-- A concrete stand-in for the Python string hash, used only to
instantiate closed statements; the facts proved hold for every choice. -/
def pyHashModel (s : String) : ℤ :=
  s.foldl (fun acc c => acc * 31 + (c.toNat : ℤ)) 7

/-- The claimed uniqueness property: across any sequence of paper
place_order calls, the returned ids are pairwise distinct. -/
def claimUniqueIds (h : String → ℤ) : Prop :=
  ∀ calls : List PlaceArgs,
    ((calls.map (paperPlaceOrder h)).map Order.id).Nodup

end CCXT

/-! Claim-specific derived definitions and concrete inputs. -/

namespace AdvancedDCA

/-- Profit-floor predicate of the claim for a single purchase (stated
gross of sell-side fees; the counterexample below also violates the
net-of-fee variant for every fee fraction in the unit interval, since
its ratio is below -1/5 while the floor is 1/200). -/
def profitFloorOK (mp : ℚ) (p : Purchase) : Prop :=
  mp ≤ (p.sellPrice * p.amount - p.cost) / p.cost ∧ p.cost < p.sellPrice * p.amount

/-- Shape invariant relating a purchase's sell price to its current cost:
as created by `_handle_buy_filled` (fee counted once) or as rewritten by
`_apply_dca_to_previous` (fee counted twice), with positive amount and
nonnegative fee. -/
def purchaseShape (mp : ℚ) (p : Purchase) : Prop :=
  0 < p.amount ∧ 0 ≤ p.fee ∧
    (p.sellPrice * p.amount = (1 + mp + 1/500) * (p.cost + p.fee) ∨
     p.sellPrice * p.amount = (1 + mp + 1/500) * (p.cost + 2 * p.fee))

/-- Purchase created from a filled buy after a sequence of reallocations
hits it: `_handle_buy_filled` followed by the per-purchase update of
`_apply_dca_to_previous` once per element of `ds` (reallocation rewrites
the last purchase of the ledger, which the new purchase is until a later
buy arrives). -/
def reallocRun (mp : ℚ) (o : Order) (ds : List ℚ) : Purchase :=
  ds.foldl (fun p d => applyDcaPurchase mp d p) (mkPurchase mp o)

/-- Joint accounting invariant: every ledger entry carries a nonnegative
dca_applied and their sum never exceeds the running counter. -/
def dcaInv (s : Strategy) : Prop :=
  (∀ p ∈ s.purchases, 0 ≤ p.dcaApplied) ∧ sumDca s ≤ s.totalDcaApplied

/-- Buy order A of the counterexample runs: 1 unit at price 1, cost 1,
fee 1. -/
def cexBuyA : Order :=
  { id := "A", symbol := "BTC/USD", side := "buy", amount := 1, filled := 1,
    price := 1, cost := 1, feeCost := 1, status := "closed" }

/-- Buy order B of the counterexample runs: 2 units at price 5, cost 10,
no fee. -/
def cexBuyB : Order :=
  { id := "B", symbol := "BTC/USD", side := "buy", amount := 2, filled := 2,
    price := 5, cost := 10, feeCost := 0, status := "closed" }

/-- Sell order closing B at revenue 20: its amount 2 matches purchase B
within tolerance, producing excess profit that is reallocated onto A. -/
def cexSellB : Order :=
  { id := "SB", symbol := "BTC/USD", side := "sell", amount := 2, filled := 2,
    price := 10, cost := 20, feeCost := 0, status := "closed" }

/-- Strategy state after buy A, buy B and the sell of B, starting from a
fresh strategy with 0.5 percent minimum profit and a full DCA pool: the
reallocation of 9.95 drives the cost of A to -8.95. -/
def cexState3 : Strategy :=
  onOrderFilled (onOrderFilled (onOrderFilled
    (initStrategy (1/200) 1 (3/2) 5) cexBuyA) cexBuyB) cexSellB

/-- Buy order A of the accounting counterexample: 1 unit, cost 10. -/
def cexBuyA4 : Order :=
  { id := "A4", symbol := "BTC/USD", side := "buy", amount := 1, filled := 1,
    price := 10, cost := 10, feeCost := 0, status := "closed" }

/-- Sell order closing A (amount 1) at revenue 20, after A has received
reallocated profit. -/
def cexSellA4 : Order :=
  { id := "SA4", symbol := "BTC/USD", side := "sell", amount := 1, filled := 1,
    price := 20, cost := 20, feeCost := 0, status := "closed" }

/-- Final state of the accounting counterexample: buy A, buy B, sell B
(reallocating 9.95 onto A), then sell A — the ledger is empty but
total_dca_applied still records 9.95. -/
def cexState4 : Strategy :=
  [cexBuyA4, cexBuyB, cexSellB, cexSellA4].foldl onOrderFilled
    (initStrategy (1/200) 1 (3/2) 5)

/-- Indicator window on which no indicator votes to buy. -/
def quietDf : Df :=
  { len := 200, priceDropped := false, rsi := 50, rsiRising := false,
    stochOversold := false, priceBelowEma := false, macdRising := false,
    mfiOversold := false, priceRising := false }

/-- Ledger entry for the step-down counterexample: bought at 100, sell
target 100.7. -/
def cexPurchase5 : Purchase :=
  { buyOrderId := "P", cost := 100, amount := 1, price := 100, fee := 0,
    sellPrice := 1007/10, dcaApplied := 0, sellOrderStatus := "pending" }

/-- Strategy holding one purchase, configured with a 2 percent profit
target so that the base step-down is 2. -/
def cexStrategy5 : Strategy :=
  { initStrategy (1/50) 1 (3/2) 5 with purchases := [cexPurchase5] }

/-- Market data at price 150: far above the sell target of the open
purchase, hence a negative drop from the last purchase. -/
def cexMd5 : MarketData :=
  { last := some 150, ohlcv := some quietDf, close := 150, timestamp := 0 }

/-- Market data at price 99: below every sell target and only 1 percent
under the last purchase price, used to instantiate the step-down hold. -/
def holdMd5 : MarketData :=
  { last := some 99, ohlcv := some quietDf, close := 99, timestamp := 0 }

/-- Triggered trailing state used to instantiate the absorbing-state
theorem. -/
def triggeredExample : TrailingState :=
  { status := "triggered", direction := some "up", activationPrice := some 100,
    watermark := some 120, trailingPercent := some 1, lastUpdate := some 0 }

end AdvancedDCA

namespace DCA

/-- Short indicator window (10 bars): below the 50-bar minimum. -/
def shortDf : Df :=
  { len := 10, priceDropped := false, rsi := 50, rsiRising := false,
    stochOversold := false, priceBelowEma := false, macdRising := false,
    mfiOversold := false, priceRising := false }

/-- Market data carrying the short window at price 100. -/
def cexMd7 : MarketData :=
  { last := some 100, ohlcv := some shortDf, close := 100, timestamp := 0 }

end DCA

namespace Backtest

/-- Fill arm of `_execute_sell`, factored for the guard statement. -/
def fillSell (st : EngineState) (sig : Signal) (md : MarketData) : EngineState :=
  let price := sig.price.getD md.close
  let amount := sig.amount.getD 0
  let proceeds := amount * price
  let avgCost := if st.position > 0 then st.positionCost / st.position else 0
  let costOfSold := amount * avgCost
  let profit := proceeds - costOfSold
  { st with balance := st.balance + proceeds
            position := st.position - amount
            positionCost := st.positionCost - costOfSold
            trades := st.trades ++
              [{ timestamp := md.timestamp, tradeType := "sell", price := price,
                 amount := amount, cost := none, proceeds := some proceeds,
                 profit := some profit, balance := st.balance + proceeds,
                 position := st.position - amount }] }

/-- Ledger of the guard counterexample: balance 100, position 5. -/
def cexEngine8 : EngineState :=
  { initialBalance := 10000, balance := 100, position := 5, positionCost := 50,
    trades := [], equityCurve := [] }

/-- Buy signal with a negative amount: its cost -10 does not exceed the
balance, yet the engine skips it silently. -/
def cexSig8 : Signal :=
  { action := "buy", confidence := 1, price := some 10, amount := some (-1) }

/-- Market data for the guard counterexample. -/
def cexMd8 : MarketData :=
  { last := some 10, ohlcv := none, close := 10, timestamp := 0 }

/-- Strategy that always holds, used to instantiate the run theorem. -/
def holdStrategy : Unit → MarketData → Signal × Unit :=
  fun u _ => ({ action := "hold", confidence := 0, price := none, amount := none }, u)

/-- Indicator oracle that reports a quiet market of the window length. -/
def quietIndf : List Candle → Df :=
  fun window =>
    { len := window.length, priceDropped := false, rsi := 50, rsiRising := false,
      stochOversold := false, priceBelowEma := false, macdRising := false,
      mfiOversold := false, priceRising := false }

/-- A single flat candle. -/
def flatCandle : Candle :=
  { timestamp := 0, openPrice := 1, highPrice := 1, lowPrice := 1,
    closePrice := 1, volume := 1 }

/-- Affordable buy signal used to instantiate the fill-guard theorem. -/
def wSigBuy8 : Signal :=
  { action := "buy", confidence := 1, price := some 10, amount := some 1 }

/-- Coverable sell signal used to instantiate the fill-guard theorem. -/
def wSigSell8 : Signal :=
  { action := "sell", confidence := 1, price := some 10, amount := some 2 }

end Backtest

namespace Bot

/-- The closed, never-notified order of the reconciliation failing
input. -/
def cexClosedOrder : Order :=
  { id := "X", symbol := "BTC/USD", side := "sell", amount := 1, filled := 1,
    price := 10, cost := 10, feeCost := 0, status := "closed" }

/-- Order lookup returning the closed order for its id. -/
def cexGetOrder : String → Option Order :=
  fun orderId => if orderId = "X" then some cexClosedOrder else none

/-- Fresh bot order-tracking state: nothing notified yet. -/
def cexBotState : BotState :=
  { notifiedOrders := [], notifications := [] }

end Bot

namespace CCXT

/-- Argument tuple repeated across two paper place_order calls. -/
def cexArgs9 : PlaceArgs :=
  { symbol := "BTC/USD", side := "buy", amount := 1, price := 100 }

end CCXT

/-! Theorems. -/

namespace AdvancedDCA

/-- Helper: when no purchase matches the sold amount within tolerance,
the pop finds nothing. -/
theorem popMatch_eq_none (sold : ℚ) (l : List Purchase)
    (h : ∀ p ∈ l, amountMatches p.amount sold = false) :
    popMatch sold l = none := by
  induction l with
  | nil => rfl
  | cons p ps ih =>
      have hp := h p (List.mem_cons_self p ps)
      have hrest : popMatch sold ps = none :=
        ih fun q hq => h q (List.mem_cons_of_mem p hq)
      simp [popMatch, hp, hrest]

/-- C6: once the trailing state machine has status triggered, a further
update call at any price and any wall-clock time returns False and leaves
the entire trailing state, watermark included, unchanged. -/
theorem trailing_triggered_absorbing (now currentPrice : ℚ) (ts : TrailingState)
    (h : ts.status = "triggered") :
    updateTrailing now currentPrice ts = (ts, false) := by
  unfold updateTrailing
  rw [h]
  rfl

/-- Witness for the triggered-state theorem at a concrete state and
price. -/
theorem trailing_triggered_absorbing_witness :
    updateTrailing 5 90 triggeredExample = (triggeredExample, false) :=
  trailing_triggered_absorbing 5 90 triggeredExample rfl

/-- C10: a filled sell whose amount matches no ledger entry within the
1e-10 tolerance (in particular when the ledger is empty) leaves the whole
strategy state unchanged; the handler is total, so no exception
escapes. -/
theorem sell_unmatched_is_noop (s : Strategy) (o : Order)
    (h : ∀ p ∈ s.purchases, amountMatches p.amount o.amount = false) :
    handleSellFilled s o = s := by
  unfold handleSellFilled
  by_cases hemp : s.purchases.isEmpty
  · simp [hemp]
  · simp [hemp, popMatch_eq_none o.amount s.purchases h]

/-- Helper: a successful pop returns a member of the list, splits the
dca_applied sum accordingly, and returns a sublist of members. -/
theorem popMatch_spec (sold : ℚ) :
    ∀ (l : List Purchase) (q : Purchase) (rest : List Purchase),
      popMatch sold l = some (q, rest) →
      q ∈ l ∧
      (l.map Purchase.dcaApplied).sum =
        q.dcaApplied + (rest.map Purchase.dcaApplied).sum ∧
      ∀ p ∈ rest, p ∈ l := by
  intro l
  induction l with
  | nil => intro q rest h; simp [popMatch] at h
  | cons p ps ih =>
      intro q rest h
      unfold popMatch at h
      by_cases hm : amountMatches p.amount sold = true
      · rw [if_pos hm] at h
        simp only [Option.some.injEq, Prod.mk.injEq] at h
        obtain ⟨rfl, rfl⟩ := h
        refine ⟨List.mem_cons_self _ _, by simp, ?_⟩
        intro r hr
        exact List.mem_cons_of_mem _ hr
      · rw [if_neg hm] at h
        cases hps : popMatch sold ps with
        | none => rw [hps] at h; simp at h
        | some pr =>
            obtain ⟨q2, rest2⟩ := pr
            rw [hps] at h
            simp only [Option.some.injEq, Prod.mk.injEq] at h
            obtain ⟨rfl, rfl⟩ := h
            obtain ⟨hqmem, hsum, hmem⟩ := ih q2 rest2 hps
            refine ⟨List.mem_cons_of_mem _ hqmem, ?_, ?_⟩
            · simp only [List.map_cons, List.sum_cons, hsum]
              ring
            · intro r hr
              rcases List.mem_cons.mp hr with hr1 | hr2
              · exact hr1 ▸ List.mem_cons_self _ _
              · exact List.mem_cons_of_mem _ (hmem r hr2)

/-- Helper: reallocation preserves the joint accounting invariant when
the applied amount is nonnegative. -/
theorem dcaInv_applyDca (s : Strategy) (d : ℚ) (hd : 0 ≤ d) (h : dcaInv s) :
    dcaInv (applyDcaToPrevious s d) := by
  unfold applyDcaToPrevious
  cases hl : s.purchases.getLast? with
  | none => exact h
  | some prev =>
      obtain ⟨hnn, hle⟩ := h
      have hsplit : s.purchases.dropLast ++ [prev] = s.purchases :=
        List.dropLast_append_getLast? prev hl
      have hprevmem : prev ∈ s.purchases := by
        rw [← hsplit]; exact List.mem_append_right _ (List.mem_singleton_self prev)
      constructor
      · intro p hp
        rcases List.mem_append.mp hp with hp1 | hp2
        · exact hnn p (by rw [← hsplit]; exact List.mem_append_left _ hp1)
        · rw [List.mem_singleton] at hp2
          subst hp2
          have hprev := hnn prev hprevmem
          simp only [applyDcaPurchase]
          linarith
      · have hsum : sumDca s =
            (s.purchases.dropLast.map Purchase.dcaApplied).sum + prev.dcaApplied := by
          unfold sumDca
          conv_lhs => rw [← hsplit]
          simp
        unfold sumDca at *
        simp only [List.map_append, List.sum_append, List.map_cons, List.sum_cons,
          List.map_nil, List.sum_nil, applyDcaPurchase]
        linarith

/-- Helper: every order-fill event preserves the joint accounting
invariant. -/
theorem dcaInv_onOrderFilled (s : Strategy) (o : Order) (h : dcaInv s) :
    dcaInv (onOrderFilled s o) := by
  unfold onOrderFilled
  split_ifs with hbuy hsell
  · -- buy: a fresh purchase with dca_applied 0, counter unchanged
    obtain ⟨hnn, hle⟩ := h
    constructor
    · intro p hp
      unfold handleBuyFilled at hp
      rcases List.mem_append.mp hp with hp1 | hp2
      · exact hnn p hp1
      · rw [List.mem_singleton] at hp2
        subst hp2
        simp [mkPurchase]
    · unfold sumDca handleBuyFilled at *
      simp only [List.map_append, List.sum_append, List.map_cons, List.sum_cons,
        List.map_nil, List.sum_nil, mkPurchase]
      linarith
  · -- sell
    unfold handleSellFilled
    by_cases hemp : s.purchases.isEmpty
    · simp only [hemp, if_true]
      exact h
    · simp only [hemp, if_false, Bool.false_eq_true]
      cases hpop : popMatch o.amount s.purchases with
      | none => exact h
      | some pr =>
          obtain ⟨q, rest⟩ := pr
          obtain ⟨hqmem, hsum, hmem⟩ := popMatch_spec o.amount s.purchases q rest hpop
          obtain ⟨hnn, hle⟩ := h
          have hq0 : 0 ≤ q.dcaApplied := hnn q hqmem
          have hrest : (rest.map Purchase.dcaApplied).sum ≤ s.totalDcaApplied := by
            unfold sumDca at hle
            linarith
          split
          · next x heq => exact Option.noConfusion heq
          · next x q2 rest2 heq =>
              simp only [Option.some.injEq, Prod.mk.injEq] at heq
              obtain ⟨rfl, rfl⟩ := heq
              have hinv1 : (∀ p ∈ rest, 0 ≤ Purchase.dcaApplied p) ∧
                  (rest.map Purchase.dcaApplied).sum ≤ s.totalDcaApplied :=
                ⟨fun p hp => hnn p (hmem p hp), hrest⟩
              split
              all_goals split
              · next hc => exact dcaInv_applyDca _ _ (le_of_lt hc.1) hinv1
              · next hc => exact hinv1
              · next hc => exact dcaInv_applyDca _ _ (le_of_lt hc.1) hinv1
              · next hc => exact hinv1
  · exact h

/-- C4 as amended: starting from an empty ledger, after any sequence of
filled buys and sells the sum of dca_applied over the remaining purchases
never exceeds total_dca_applied; exact equality fails once a purchase
carrying reallocated profit is itself sold, since removal forgets its
dca_applied while the counter keeps it. -/
theorem advancedDca_dca_accounting (mp pool mult maxSd : ℚ) (os : List Order) :
    sumDca (os.foldl onOrderFilled (initStrategy mp pool mult maxSd)) ≤
      (os.foldl onOrderFilled (initStrategy mp pool mult maxSd)).totalDcaApplied := by
  have h0 : dcaInv (initStrategy mp pool mult maxSd) := by
    constructor
    · intro p hp
      simp [initStrategy] at hp
    · simp [sumDca, initStrategy]
  have hfold : ∀ (l : List Order) (s : Strategy), dcaInv s →
      dcaInv (l.foldl onOrderFilled s) := by
    intro l
    induction l with
    | nil => intro s hs; exact hs
    | cons o rest ih => intro s hs; exact ih _ (dcaInv_onOrderFilled s o hs)
  exact (hfold os _ h0).2

/-- C4 counterexample: buy A, buy B, sell B (reallocating 9.95 onto A),
then sell A — the ledger is empty, so the sum of dca_applied over the
remaining purchases is 0, but total_dca_applied is 9.95: the claimed
exact equality fails. -/
theorem advancedDca_dca_accounting_cex :
    sumDca cexState4 ≠ cexState4.totalDcaApplied := by
  have hsb : (("sell" : String) = "buy") = False := eq_false (by decide)
  norm_num [cexState4, cexBuyA4, cexBuyB, cexSellB, cexSellA4, initStrategy,
    onOrderFilled, handleBuyFilled, handleSellFilled, mkPurchase, popMatch,
    amountMatches, pyAbs, applyDcaToPrevious, applyDcaPurchase, sumDca,
    List.getLast?, List.dropLast, hsb]

/-- Helper: the creation formula of `_handle_buy_filled` establishes the
sell-price shape invariant. -/
theorem mkPurchase_shape (mp : ℚ) (o : Order)
    (hamt : 0 < o.filled) (hfee : 0 ≤ o.feeCost) :
    purchaseShape mp (mkPurchase mp o) := by
  refine ⟨hamt, hfee, Or.inl ?_⟩
  unfold mkPurchase
  dsimp only
  field_simp
  ring

/-- Helper: the reallocation rewrite of `_apply_dca_to_previous`
preserves the sell-price shape invariant. -/
theorem applyDcaPurchase_shape (mp d : ℚ) (p : Purchase)
    (h : purchaseShape mp p) :
    purchaseShape mp (applyDcaPurchase mp d p) := by
  obtain ⟨hamt, hfee, _⟩ := h
  refine ⟨hamt, hfee, Or.inr ?_⟩
  unfold applyDcaPurchase
  dsimp only
  field_simp
  ring

/-- Helper: the shape invariant survives any sequence of reallocations. -/
theorem foldl_applyDca_shape (mp : ℚ) (ds : List ℚ) :
    ∀ (p : Purchase), purchaseShape mp p →
      purchaseShape mp (ds.foldl (fun q d => applyDcaPurchase mp d q) p) := by
  induction ds with
  | nil => intro p hp; exact hp
  | cons d rest ih =>
      intro p hp
      exact ih _ (applyDcaPurchase_shape mp d p hp)

/-- Helper: the shape invariant yields the profit floor whenever the
current cost is positive. -/
theorem shape_profit_floor (mp : ℚ) (p : Purchase) (hmp : 0 ≤ mp)
    (hshape : purchaseShape mp p) (hc : 0 < p.cost) :
    profitFloorOK mp p := by
  obtain ⟨hamt, hfee, hS | hS⟩ := hshape <;>
    constructor
  · rw [le_div_iff₀ hc]
    nlinarith [mul_nonneg hmp hfee]
  · nlinarith [mul_nonneg hmp hfee]
  · rw [le_div_iff₀ hc]
    nlinarith [mul_nonneg hmp hfee]
  · nlinarith [mul_nonneg hmp hfee]

/-- C3 as amended: a purchase created by a filled buy (positive filled
amount, nonnegative fee), after any sequence of DCA reallocations applied
to it, satisfies the profit floor
`(sellPrice * amount - cost) / cost >= minProfitPercent` and
`sellPrice * amount > cost` — provided its current, possibly reduced,
cost is still positive.  (Reallocation subtracts an uncapped amount from
the cost, so the cost can reach zero or below, where the floor fails; see
the counterexample.) -/
theorem advancedDca_profit_floor (mp : ℚ) (o : Order) (ds : List ℚ)
    (hmp : 0 ≤ mp) (hamt : 0 < o.filled) (hfee : 0 ≤ o.feeCost)
    (hc : 0 < (reallocRun mp o ds).cost) :
    profitFloorOK mp (reallocRun mp o ds) :=
  shape_profit_floor mp _ hmp
    (foldl_applyDca_shape mp ds _ (mkPurchase_shape mp o hamt hfee)) hc

/-- Witness for the profit-floor theorem: buy B (2 units, cost 10, no
fee) with a single reallocation of 2, leaving cost 8. -/
theorem advancedDca_profit_floor_witness :
    profitFloorOK (1/200) (reallocRun (1/200) cexBuyB [2]) :=
  advancedDca_profit_floor (1/200) cexBuyB [2] (by norm_num)
    (by norm_num [cexBuyB]) (by norm_num [cexBuyB])
    (by norm_num [reallocRun, mkPurchase, applyDcaPurchase, cexBuyB])

/-- C3 counterexample: after buy A (cost 1, fee 1), buy B and the sale of
B, the reallocated 9.95 drives the cost of A to -8.95 and its profit
ratio to about -0.218, far below the 0.5 percent floor: the claim as
stated fails (and, for this purchase, multiplying the proceeds by
`1 - feeFraction` for any fee fraction between 0 and 1 only lowers the
ratio further). -/
theorem advancedDca_profit_floor_cex :
    ¬ profitFloorOK (1/200) cexState3.purchases.headI := by
  intro hfloor
  have hsb : (("sell" : String) = "buy") = False := eq_false (by decide)
  have h1 := hfloor.1
  norm_num [cexState3, cexBuyA, cexBuyB, cexSellB, initStrategy,
    onOrderFilled, handleBuyFilled, handleSellFilled, mkPurchase, popMatch,
    amountMatches, pyAbs, applyDcaToPrevious, applyDcaPurchase,
    List.getLast?, List.dropLast, hsb, profitFloorOK] at h1

/-- Witness for the unmatched-sell theorem: one ledger entry of amount 1
against a sell of amount 2. -/
theorem sell_unmatched_is_noop_witness :
    handleSellFilled
      { initStrategy (1/200) 1 (3/2) 5 with purchases := [cexPurchase5] } cexSellB =
    { initStrategy (1/200) 1 (3/2) 5 with purchases := [cexPurchase5] } :=
  sell_unmatched_is_noop _ cexSellB (by
    intro p hp
    simp only [List.mem_singleton] at hp
    subst hp
    norm_num [amountMatches, pyAbs, cexPurchase5, cexSellB])

/-- C5 as amended: when the ledger is non-empty and no open purchase has
reached its sell target (the sell branch has priority and would otherwise
fire first), analyze returns hold whenever the drop from the last
purchase price is below
`requiredStep = min(baseStepDown * multiplier ^ (purchaseNumber - 2), maxStepDown)`;
and for baseStepDown 2 percent, multiplier 1.5, cap 5 percent the
required drops for purchases 2, 3, 4 are 2, 3, 4.5 percent and 5 percent
from purchase 5 on, with baseStepDown derived as
`min(minProfitPercent, 5 percent)` by the constructor. -/
theorem advancedDca_step_down (s : Strategy) (md : MarketData)
    (currentPrice : ℚ) (df : Df) (lastPurchase : Purchase)
    (hlast : md.last = some currentPrice) (hdf : md.ohlcv = some df)
    (hok : ¬ (currentPrice = 0 ∨ df.len < 50))
    (hlp : s.purchases.getLast? = some lastPurchase)
    (hnosell : ∀ p ∈ s.purchases, ¬ currentPrice ≥ p.sellPrice)
    (hdrop : ((lastPurchase.price - currentPrice) / lastPurchase.price) * 100 <
      requiredStep s.baseStepDown s.stepDownMultiplier s.maxStepDown
        (s.purchases.length + 1)) :
    (advAnalyze s md).1.action = "hold" ∧
    requiredStep 2 (3/2) 5 2 = 2 ∧
    requiredStep 2 (3/2) 5 3 = 3 ∧
    requiredStep 2 (3/2) 5 4 = 9/2 ∧
    (∀ n, 5 ≤ n → requiredStep 2 (3/2) 5 n = 5) ∧
    (initStrategy (1/50) 1 (3/2) 5).baseStepDown = 2 := by
  refine ⟨?_, by norm_num [requiredStep], by norm_num [requiredStep],
    by norm_num [requiredStep], ?_, by norm_num [initStrategy]⟩
  · have hfind : s.purchases.find? (fun p => decide (currentPrice ≥ p.sellPrice)) = none := by
      apply List.find?_eq_none.mpr
      intro p hpmem
      simpa using hnosell p hpmem
    simp only [advAnalyze, hlast, hdf]
    rw [if_neg hok]
    simp only [hfind, hlp]
    rw [if_pos hdrop]
    rfl
  · intro n hn
    unfold requiredStep
    have h32 : (1:ℚ) ≤ 3/2 := by norm_num
    have hpow : (3/2 : ℚ) ^ 3 ≤ (3/2 : ℚ) ^ (n - 2) := by
      apply pow_le_pow_right₀ h32
      omega
    have h5 : (5:ℚ) ≤ 2 * (3/2) ^ (n - 2) := by nlinarith
    rw [min_eq_right h5]

/-- Witness for the step-down theorem: one open purchase bought at 100
with sell target 100.7, current price 99 (a 1 percent drop, below the
required 2 percent) — analyze holds. -/
theorem advancedDca_step_down_witness :
    (advAnalyze cexStrategy5 holdMd5).1.action = "hold" :=
  (advancedDca_step_down cexStrategy5 holdMd5 99 quietDf cexPurchase5
    rfl rfl (by norm_num [quietDf]) rfl
    (by
      intro p hp
      simp only [cexStrategy5, List.mem_singleton] at hp
      subst hp
      norm_num [cexPurchase5])
    (by norm_num [requiredStep, cexStrategy5, cexPurchase5, initStrategy])).1

/-- C5 counterexample: with the same single open purchase, at price 150
the drop from the last purchase is negative — far below the required
step — yet analyze returns sell (the purchase reached its target), not
hold: the claim as stated fails. -/
theorem advancedDca_step_down_cex :
    ((cexPurchase5.price - 150) / cexPurchase5.price) * 100 <
      requiredStep cexStrategy5.baseStepDown cexStrategy5.stepDownMultiplier
        cexStrategy5.maxStepDown (cexStrategy5.purchases.length + 1) ∧
    (advAnalyze cexStrategy5 cexMd5).1.action = "sell" := by
  constructor
  · norm_num [requiredStep, cexStrategy5, cexPurchase5, initStrategy]
  · norm_num [advAnalyze, cexMd5, cexStrategy5, cexPurchase5, quietDf,
      initStrategy, List.find?]

end AdvancedDCA

namespace Bot

/-- C1 (failing-input evaluation): with one closed, never-notified order
in the open-order list, the fill-reconciliation step delivers zero
on_order_filled notifications — the iteration over
`list(open_orders.keys())` raises AttributeError on the list and the
surrounding try/except swallows it — and a second run over the same list
delivers zero as well, against the claimed exactly-one delivery. -/
theorem check_filled_orders_never_notifies :
    (checkFilledOrders cexGetOrder [cexClosedOrder] cexBotState).notifications = [] ∧
    (checkFilledOrders cexGetOrder [cexClosedOrder]
      (checkFilledOrders cexGetOrder [cexClosedOrder] cexBotState)).notifications = [] :=
  ⟨rfl, rfl⟩

end Bot

namespace CCXT

/-- C9 counterexample: the claimed pairwise distinctness of paper order
ids fails — two place_order calls with the same symbol, side, amount and
price hash the same interpolated string and return the same id (shown at
the modelled hash; the proof works uniformly in the hash function). -/
theorem paper_ids_not_unique_cex : ¬ claimUniqueIds pyHashModel := by
  intro hcl
  have h2 := hcl [cexArgs9, cexArgs9]
  simp [List.map] at h2

/-- C9 as amended: a paper order is immediately closed with filled equal
to the requested amount, and its id is a deterministic function of the
call arguments — but for every hash function the ids are not unique
across distinct calls, since equal argument tuples yield equal ids. -/
theorem paper_order_closed_and_deterministic (h : String → ℤ) (a : PlaceArgs) :
    (paperPlaceOrder h a).status = "closed" ∧
    (paperPlaceOrder h a).filled = a.amount ∧
    ¬ claimUniqueIds h := by
  refine ⟨rfl, rfl, ?_⟩
  intro hcl
  have h2 := hcl [a, a]
  simp [List.map] at h2

end CCXT

namespace Backtest

/-- C2 (failing-input evaluation): for every strategy and every non-empty
bar sequence, `run` computes the results dictionary but then raises
KeyError reading the summary key total_profit, which
`_calculate_results` never writes (it writes total_return), so `run`
never returns the results. -/
theorem run_raises_keyerror {σ : Type} (strat : σ → MarketData → Signal × σ)
    (indf : List Candle → Df) (initialBalance : ℚ) (bars : List Candle)
    (s0 : σ) (hbars : bars.isEmpty = false) :
    run strat indf initialBalance bars s0 = Except.error "KeyError: total_profit" := by
  unfold run
  rw [hbars]
  rfl

/-- Witness for the KeyError theorem on a single flat candle with the
hold strategy. -/
theorem run_raises_keyerror_witness :
    run holdStrategy quietIndf 10000 [flatCandle] () =
      Except.error "KeyError: total_profit" :=
  run_raises_keyerror holdStrategy quietIndf 10000 [flatCandle] () rfl

/-- C8 counterexample: a buy signal for amount -1 at price 10 against
balance 100 has cost -10, so it does not exceed the balance; the claimed
dichotomy says it is filled, but the engine skips it (the `amount <= 0`
guard), leaving the ledger and trade log unchanged: the claim as stated
fails. -/
theorem fill_guards_cex : ¬ buyClaim cexEngine8 cexSig8 cexMd8 := by
  intro hcl
  unfold buyClaim at hcl
  rw [if_neg (by norm_num [cexSig8, cexEngine8, cexMd8])] at hcl
  have hb := congrArg EngineState.balance hcl
  norm_num [executeBuy, specFillBuy, cexSig8, cexEngine8, cexMd8] at hb

/-- C8 as amended: for signals with positive amount, a buy whose cost
exceeds the balance and a sell whose amount exceeds the position are
silently skipped with the whole engine state (ledger and trade log)
unchanged; otherwise the signal is filled immediately and fully at the
stated price, appending exactly one trade.  Signals with non-positive
amount are likewise silently skipped, which is the case the claim
misses. -/
theorem fill_guards (st : EngineState) (sigB sigS : Signal) (md : MarketData)
    (hB : 0 < sigB.amount.getD 0) (hS : 0 < sigS.amount.getD 0) :
    (sigB.amount.getD 0 * sigB.price.getD md.close > st.balance →
      executeBuy st sigB md = st) ∧
    (sigB.amount.getD 0 * sigB.price.getD md.close ≤ st.balance →
      executeBuy st sigB md = specFillBuy st sigB md) ∧
    (sigS.amount.getD 0 > st.position → executeSell st sigS md = st) ∧
    (sigS.amount.getD 0 ≤ st.position → executeSell st sigS md = fillSell st sigS md) := by
  have hBne : ¬ sigB.amount.getD 0 ≤ 0 := not_le.mpr hB
  have hSne : ¬ sigS.amount.getD 0 ≤ 0 := not_le.mpr hS
  refine ⟨fun hcond => ?_, fun hcond => ?_, fun hcond => ?_, fun hcond => ?_⟩
  · unfold executeBuy
    rw [if_neg hBne, if_pos hcond]
  · unfold executeBuy specFillBuy
    rw [if_neg hBne, if_neg (not_lt.mpr hcond)]
  · unfold executeSell
    rw [if_neg hSne, if_pos hcond]
  · unfold executeSell fillSell
    rw [if_neg hSne, if_neg (not_lt.mpr hcond)]

/-- Witness for the fill-guard theorem: affordable buy (cost 10 against
balance 100) is filled. -/
theorem fill_guards_witness :
    executeBuy cexEngine8 wSigBuy8 cexMd8 = specFillBuy cexEngine8 wSigBuy8 cexMd8 :=
  (fill_guards cexEngine8 wSigBuy8 wSigSell8 cexMd8
      (by norm_num [wSigBuy8]) (by norm_num [wSigSell8])).2.1
    (by norm_num [wSigBuy8, cexEngine8, cexMd8])

end Backtest

/-- Helper: the indicator-vote tail of the DCA analyze leaves the
strategy component untouched. -/
theorem dcaAnalyzeLimits_state (s1 : DCA.Strategy) (cp : ℚ) (df : Df) :
    (DCA.dcaAnalyze.dcaAnalyzeLimits s1 cp df).2 = s1 := by
  unfold DCA.dcaAnalyze.dcaAnalyzeLimits
  split_ifs <;> rfl

/-- Helper: the OHLCV cache refresh writes only the cache fields. -/
theorem getOhlcvData_cache (s : DCA.Strategy) (now : ℚ) (md : MarketData) :
    DCA.cacheCleared (DCA.getOhlcvData s now md).2 = DCA.cacheCleared s := by
  unfold DCA.getOhlcvData
  split
  · rfl
  · split
    · rfl
    · rfl

/-- Helper: past the smart price-move gate, the only state change of the
DCA analyze is the cache refresh. -/
theorem dcaAnalyzeAfterSmart_cache (s : DCA.Strategy) (now : ℚ)
    (md : MarketData) (cp : ℚ) :
    DCA.cacheCleared (DCA.dcaAnalyze.dcaAnalyzeAfterSmart s now md cp).2 =
      DCA.cacheCleared s := by
  simp only [DCA.dcaAnalyze.dcaAnalyzeAfterSmart]
  split
  · exact getOhlcvData_cache s now md
  · split_ifs <;>
      first
        | exact getOhlcvData_cache s now md
        | (rw [dcaAnalyzeLimits_state]; exact getOhlcvData_cache s now md)

/-- C7 as amended: the AdvancedDCA analyze is pure — it returns the
strategy state unchanged on every path (and reads no clock, so its result
is a function of snapshot and state alone); the DCA variant falsifies the
claim (see the counterexample), but even there the only state the method
writes is its OHLCV cache: outside the cache fields the state is
preserved. -/
theorem analyze_purity :
    (∀ (s : AdvancedDCA.Strategy) (md : MarketData),
        (AdvancedDCA.advAnalyze s md).2 = s) ∧
    (∀ (s : DCA.Strategy) (now : ℚ) (md : MarketData),
        DCA.cacheCleared (DCA.dcaAnalyze s now md).2 = DCA.cacheCleared s) := by
  constructor
  · intro s md
    unfold AdvancedDCA.advAnalyze
    repeat' (first | rfl | split | dsimp only)
  · intro s now md
    simp only [DCA.dcaAnalyze]
    split
    · rfl
    · split_ifs <;>
        first
          | rfl
          | exact dcaAnalyzeAfterSmart_cache s now md _

/-- C7 counterexample: running the DCA analyze on a fresh strategy with
an empty cache and a 10-bar window mutates the strategy state — the
window is written into the OHLCV cache even though the call returns an
insufficient-data hold — so analyze is not mutation-free as claimed. -/
theorem dca_analyze_mutates_cex :
    (DCA.dcaAnalyze DCA.initStrategy 50 DCA.cexMd7).2 ≠ DCA.initStrategy := by
  intro h
  have hc := congrArg DCA.Strategy.ohlcvCache h
  norm_num [DCA.dcaAnalyze, DCA.dcaAnalyze.dcaAnalyzeAfterSmart,
    DCA.dcaAnalyze.dcaAnalyzeLimits, DCA.getOhlcvData, DCA.truthy,
    DCA.initStrategy, DCA.cexMd7, DCA.shortDf] at hc
  exact Option.noConfusion hc

end KryptoBot
